import Mathlib

/-!
Verification development for the wbackend room-coordination server.

The repository holds several near-identical variants of the same socket.io
server; this development embeds the fullest variant (the production one with
capacity settings, a leave-room handler and ownership transfer), which is the
variant the specification's testable properties refer to.

Rooms are kept in a JavaScript Map keyed by room id; each room holds two
insertion-ordered Maps of participants (general roster and video roster).
JavaScript Maps are modelled as association lists with insertion-order
semantics: set updates an existing key in place or appends, delete removes the
entry, iteration (keys, values, forEach) follows list order.
-/

namespace WBackend

/-- One participant record as stored in a roster Map by the join handlers
(fields: id, username, joinedAt, isOwner, videoEnabled, audioEnabled,
lastSeen). Timestamps are abstracted as naturals. -/
structure Participant where
  id : String
  username : String
  joinedAt : Nat
  isOwner : Bool
  videoEnabled : Bool
  audioEnabled : Bool
  lastSeen : Nat
  deriving DecidableEq, Repr

/-- Per-room settings object built at room creation (maxUsers from the
environment with default 50, allowScreenShare, allowRecording). -/
structure Settings where
  maxUsers : Nat
  allowScreenShare : Bool
  allowRecording : Bool
  deriving DecidableEq, Repr

/-- One room record of the registry: diagram state (nodes, edges — opaque
records abstracted as naturals), the general roster map, the owner id, the
video roster map, the creation timestamp and the settings. -/
structure Room where
  nodes : List Nat
  edges : List Nat
  users : List (String × Participant)
  owner : String
  videoUsers : List (String × Participant)
  created : Nat
  settings : Settings
  deriving DecidableEq, Repr

/-- The room registry: a JavaScript Map from room id to Room. -/
abbrev Rooms := List (String × Room)

/-- Map.get: first entry with the given key, if any. -/
def mapGet (k : String) : List (String × α) → Option α
  | [] => none
  | (k1, v1) :: rest => if k1 = k then some v1 else mapGet k rest

/-- Map.set: replace the value at an existing key in place (keeping its
position in iteration order), or append a new entry. -/
def mapSet (k : String) (v : α) : List (String × α) → List (String × α)
  | [] => [(k, v)]
  | (k1, v1) :: rest => if k1 = k then (k, v) :: rest else (k1, v1) :: mapSet k v rest

/-- Map.delete: drop the entry with the given key, if present. -/
def mapDelete (k : String) : List (String × α) → List (String × α)
  | [] => []
  | (k1, v1) :: rest => if k1 = k then rest else (k1, v1) :: mapDelete k rest

/-- Array.from of Map.values in iteration order. -/
def vals (l : List (String × α)) : List α := l.map (fun p => p.2)

/-- Array.from of Map.keys, first element — the replacement owner picked on
owner departure. Empty maps never reach this in the handlers. -/
def firstKey : List (String × Participant) → String
  | [] => ""
  | (k, _) :: _ => k


/-- The per-connection state the server keeps on the socket object:
the connection id, the remembered room association (socket.roomId),
the remembered display name (socket.username), and the set of transport
channels the socket has joined via socket.join (socket.io rooms; the
socket's own id channel is implicit and not stored here). -/
structure Conn where
  id : String
  roomId : Option String
  username : Option String
  joined : List String
  deriving DecidableEq, Repr

/-- socket.join: subscribe the connection to a transport channel
(idempotent). -/
def sJoin (r : String) (l : List String) : List String :=
  if r ∈ l then l else l ++ [r]

/-- socket.leave: unsubscribe the connection from a transport channel. -/
def sLeave (r : String) (l : List String) : List String := l.erase r

/-- Outbound events the handlers emit, one constructor per socket.io event
name used by the server (payloads carried verbatim). Opaque signaling
payloads are abstracted as naturals. -/
inductive Event where
  | error (message : String)
  | roomState (nodes edges : List Nat) (users : List Participant) (isOwner : Bool)
  | userJoined (username socketId : String) (users : List Participant)
  | usersUpdated (users : List Participant)
  | userLeft (socketId : String) (username : Option String) (users : List Participant)
  | videoRoomState (users : List Participant) (isOwner : Bool)
  | videoUserJoined (user : Participant) (users : List Participant)
  | videoUserLeft (userId : String) (users : List Participant)
  | offer (payload : Nat) (sender : String) (username : Option String)
  | answer (payload : Nat) (sender : String) (username : Option String)
  | iceCandidate (payload : Nat) (sender : String) (username : Option String)
  | ownershipTransferred (newOwnerId : String) (users : List Participant)
  | diagram (nodes edges : Option (List Nat))
  deriving DecidableEq, Repr

/-- One emission instruction: socket.emit to a single socket, socket.to(x)
.emit (every subscriber of channel x except the sender), or io.to(x).emit
(every subscriber of channel x including the sender). -/
inductive Emit where
  | toSocket (socketId : String) (ev : Event)
  | toRoomExcept (channel sender : String) (ev : Event)
  | toRoom (channel : String) (ev : Event)
  deriving DecidableEq, Repr

/-- The room record built when a join handler sees an unknown room id: empty
diagram, empty rosters, owner = the joining connection, settings fixed from
the environment (maxUsers, with screen share and recording allowed). Both
join-room and join-video-room build this same record. -/
def freshRoom (creatorId : String) (now maxUsersSetting : Nat) : Room :=
  { nodes := [], edges := [], users := [], owner := creatorId, videoUsers := [],
    created := now,
    settings := { maxUsers := maxUsersSetting, allowScreenShare := true,
                  allowRecording := true } }

/-- Result of a join handler: the updated registry, the updated connection
state, and the emitted events in order. -/
structure JoinResult where
  rooms : Rooms
  conn : Conn
  emits : List Emit
  deriving DecidableEq, Repr

/-- Result of a handler that does not change connection state. -/
structure StepResult where
  rooms : Rooms
  emits : List Emit
  deriving DecidableEq, Repr

/-- The join-room handler: validates roomId and username (empty string models
a falsy field), leaves the previously associated transport channel, joins the
new one and re-points socket.roomId and socket.username, creates the room if
absent (owner = this connection), rejects with a private error when the
general roster is at capacity, and otherwise stores the participant with
isOwner computed as the caller-supplied flag OR-ed with the owner comparison,
then emits room-state (private), user-joined (rest of room) and users-updated
(whole room). -/
def joinRoom (now maxUsersSetting : Nat) (conn : Conn) (roomId username : String)
    (isOwnerArg : Bool) (rooms : Rooms) : JoinResult :=
  if roomId = "" ∨ username = "" then
    { rooms := rooms, conn := conn,
      emits := [Emit.toSocket conn.id (Event.error "Room ID and username are required")] }
  else
    let joined1 :=
      match conn.roomId with
      | some prev => sLeave prev conn.joined
      | none => conn.joined
    let conn1 : Conn :=
      { conn with joined := sJoin roomId joined1, roomId := some roomId,
                  username := some username }
    let rooms1 :=
      if (mapGet roomId rooms).isSome then rooms
      else mapSet roomId (freshRoom conn.id now maxUsersSetting) rooms
    let room := (mapGet roomId rooms1).getD (freshRoom conn.id now maxUsersSetting)
    if room.users.length ≥ room.settings.maxUsers then
      { rooms := rooms1, conn := conn1,
        emits := [Emit.toSocket conn.id (Event.error "Room is full")] }
    else
      let p : Participant :=
        { id := conn.id, username := username, joinedAt := now,
          isOwner := isOwnerArg || (room.owner == conn.id),
          videoEnabled := true, audioEnabled := true, lastSeen := now }
      let room1 := { room with users := mapSet conn.id p room.users }
      { rooms := mapSet roomId room1 rooms1, conn := conn1,
        emits :=
          [Emit.toSocket conn.id
            (Event.roomState room1.nodes room1.edges (vals room1.users)
              (room.owner == conn.id)),
           Emit.toRoomExcept roomId conn.id
            (Event.userJoined username conn.id (vals room1.users)),
           Emit.toRoom roomId (Event.usersUpdated (vals room1.users))] }

/-- The join-video-room handler: no input validation and no implicit leave of
the previous channel; joins the channel, re-points socket state, creates the
room if absent, rejects when the video roster is at capacity, and otherwise
stores the participant in the video roster with the same caller-OR-owner
isOwner computation, then emits video-room-state (private) and
video-user-joined (rest of room). -/
def joinVideoRoom (now maxUsersSetting : Nat) (conn : Conn) (roomId username : String)
    (isOwnerArg : Bool) (rooms : Rooms) : JoinResult :=
  let conn1 : Conn :=
    { conn with joined := sJoin roomId conn.joined, roomId := some roomId,
                username := some username }
  let rooms1 :=
    if (mapGet roomId rooms).isSome then rooms
    else mapSet roomId (freshRoom conn.id now maxUsersSetting) rooms
  let room := (mapGet roomId rooms1).getD (freshRoom conn.id now maxUsersSetting)
  if room.videoUsers.length ≥ room.settings.maxUsers then
    { rooms := rooms1, conn := conn1,
      emits := [Emit.toSocket conn.id (Event.error "Video room is full")] }
  else
    let p : Participant :=
      { id := conn.id, username := username, joinedAt := now,
        isOwner := isOwnerArg || (room.owner == conn.id),
        videoEnabled := true, audioEnabled := true, lastSeen := now }
    let room1 := { room with videoUsers := mapSet conn.id p room.videoUsers }
    { rooms := mapSet roomId room1 rooms1, conn := conn1,
      emits :=
        [Emit.toSocket conn.id
          (Event.videoRoomState (vals room1.videoUsers) (room.owner == conn.id)),
         Emit.toRoomExcept roomId conn.id
          (Event.videoUserJoined p (vals room1.videoUsers))] }

/-- Mark isOwner on every roster entry as the comparison of its key with the
given owner id (the forEach loops of the ownership handlers). -/
def reflag (newOwner : String) (l : List (String × Participant)) :
    List (String × Participant) :=
  l.map (fun p => (p.1, { p.2 with isOwner := p.1 == newOwner }))

/-- The transfer-ownership handler: only acts when the connection has a room
association, the room exists, and the requester is the current owner; then
sets owner to the caller-supplied id (no membership check), recomputes isOwner
on both rosters and broadcasts ownership-transferred to the whole room.
Otherwise the registry is untouched and nothing is emitted. -/
def transferOwnership (conn : Conn) (newOwnerId : String) (rooms : Rooms) :
    StepResult :=
  match conn.roomId with
  | none => { rooms := rooms, emits := [] }
  | some rid =>
    match mapGet rid rooms with
    | none => { rooms := rooms, emits := [] }
    | some room =>
      if room.owner = conn.id then
        let users1 := reflag newOwnerId room.users
        let vusers1 := reflag newOwnerId room.videoUsers
        let room1 :=
          { room with owner := newOwnerId, users := users1, videoUsers := vusers1 }
        { rooms := mapSet rid room1 rooms,
          emits := [Emit.toRoom rid
            (Event.ownershipTransferred newOwnerId (vals users1))] }
      else { rooms := rooms, emits := [] }

/-- Shared body of the leave-room and disconnect handlers (their registry and
emission logic is line-identical in the source): remove the connection from
both rosters; if the departing connection was the owner and the general
roster is still non-empty, promote the first remaining key in roster
iteration order, recompute isOwner on both rosters and broadcast
ownership-transferred; then either delete the now-empty room or notify the
remaining members (user-left, video-user-left, users-updated). -/
def departRoom (conn : Conn) (rooms : Rooms) : StepResult :=
  match conn.roomId with
  | none => { rooms := rooms, emits := [] }
  | some rid =>
    match mapGet rid rooms with
    | none => { rooms := rooms, emits := [] }
    | some room =>
      let users1 := mapDelete conn.id room.users
      let vusers1 := mapDelete conn.id room.videoUsers
      if room.owner = conn.id ∧ 0 < users1.length then
        let newOwner := firstKey users1
        let users2 := reflag newOwner users1
        let vusers2 := reflag newOwner vusers1
        let room1 :=
          { room with owner := newOwner, users := users2, videoUsers := vusers2 }
        { rooms := mapSet rid room1 rooms,
          emits :=
            [Emit.toRoom rid (Event.ownershipTransferred newOwner (vals users2)),
             Emit.toRoomExcept rid conn.id
              (Event.userLeft conn.id conn.username (vals users2)),
             Emit.toRoomExcept rid conn.id
              (Event.videoUserLeft conn.id (vals vusers2)),
             Emit.toRoom rid (Event.usersUpdated (vals users2))] }
      else if users1.length = 0 then
        { rooms := mapDelete rid rooms, emits := [] }
      else
        let room1 := { room with users := users1, videoUsers := vusers1 }
        { rooms := mapSet rid room1 rooms,
          emits :=
            [Emit.toRoomExcept rid conn.id
              (Event.userLeft conn.id conn.username (vals users1)),
             Emit.toRoomExcept rid conn.id
              (Event.videoUserLeft conn.id (vals vusers1)),
             Emit.toRoom rid (Event.usersUpdated (vals users1))] }

/-- The leave-room handler. -/
def leaveRoom (conn : Conn) (rooms : Rooms) : StepResult := departRoom conn rooms

/-- The disconnect handler; its registry and emission logic is line-identical
to leave-room. -/
def disconnectH (conn : Conn) (rooms : Rooms) : StepResult := departRoom conn rooms

/-- The update-diagram handler: when the connection has a room association and
the room exists, persist the provided nodes and edges into the room (an
absent field keeps the previous value — in the source the payload field is
either an array, which is truthy, or undefined, which is falsy, so the
JavaScript or-assignment is exactly this Option fallback) and forward the
payload to the rest of the room. -/
def updateDiagram (conn : Conn) (nodesArg edgesArg : Option (List Nat))
    (rooms : Rooms) : StepResult :=
  match conn.roomId with
  | none => { rooms := rooms, emits := [] }
  | some rid =>
    match mapGet rid rooms with
    | none => { rooms := rooms, emits := [] }
    | some room =>
      let room1 :=
        { room with nodes := nodesArg.getD room.nodes, edges := edgesArg.getD room.edges }
      { rooms := mapSet rid room1 rooms,
        emits := [Emit.toRoomExcept rid conn.id (Event.diagram nodesArg edgesArg)] }

/-- The offer handler: relays the payload with the sender id and username to
the channel named by the caller-supplied target; the registry is never
touched. -/
def onOffer (conn : Conn) (target : String) (payload : Nat) (rooms : Rooms) :
    StepResult :=
  { rooms := rooms,
    emits := [Emit.toRoomExcept target conn.id
      (Event.offer payload conn.id conn.username)] }

/-- The answer handler, same shape as the offer handler. -/
def onAnswer (conn : Conn) (target : String) (payload : Nat) (rooms : Rooms) :
    StepResult :=
  { rooms := rooms,
    emits := [Emit.toRoomExcept target conn.id
      (Event.answer payload conn.id conn.username)] }

/-- The ice-candidate handler, same shape as the offer handler. -/
def onIceCandidate (conn : Conn) (target : String) (payload : Nat) (rooms : Rooms) :
    StepResult :=
  { rooms := rooms,
    emits := [Emit.toRoomExcept target conn.id
      (Event.iceCandidate payload conn.id conn.username)] }

/-- A live connection as the transport sees it: its id (every socket is
subscribed to the channel named by its own id) plus the channels it joined. -/
structure Live where
  id : String
  joined : List String
  deriving DecidableEq, Repr

/-- Whether a live connection is subscribed to a channel. -/
def memberOf (l : Live) (channel : String) : Bool :=
  l.id == channel || l.joined.contains channel

/-- Modelled from the spec: the transport layer (socket.io) is out of scope
of the repository; per the spec, an addressed send to a channel delivers to
every live subscribed connection (excluding the sender for socket.to), and a
send to a channel with no live subscriber is a no-op, not an error. -/
def deliver (lives : List Live) : Emit → List (String × Event)
  | Emit.toSocket sid ev =>
      if lives.any (fun l => l.id == sid) then [(sid, ev)] else []
  | Emit.toRoomExcept ch sender ev =>
      (lives.filter (fun l => memberOf l ch && l.id != sender)).map
        (fun l => (l.id, ev))
  | Emit.toRoom ch ev =>
      (lives.filter (fun l => memberOf l ch)).map (fun l => (l.id, ev))

/-- Deliver a list of emission instructions in order. -/
def deliverAll (lives : List Live) (es : List Emit) : List (String × Event) :=
  (es.map (deliver lives)).flatten

/-- Whether a room satisfies the ownership invariant the specification
asserts: a non-empty general roster that contains the owner id as a key. -/
def roomOk (room : Room) : Bool :=
  !room.users.isEmpty && (mapGet room.owner room.users).isSome

/-- The registry-wide ownership invariant of the specification. -/
def RegInv (rooms : Rooms) : Prop :=
  ∀ e ∈ rooms, roomOk e.2 = true

/-- The participant entry a given user holds in a given room's general
roster, read through the registry. -/
def userEntry (rid uid : String) (rooms : Rooms) : Option Participant :=
  (mapGet rid rooms).bind (fun room => mapGet uid room.users)

/-- The owner id a given room currently records, read through the registry. -/
def roomOwner (rid : String) (rooms : Rooms) : Option String :=
  (mapGet rid rooms).map Room.owner

/-- The owner's own entry in the general roster of a room. -/
def ownerEntry (room : Room) : Option Participant :=
  mapGet room.owner room.users

/-- The participant record a successful join-room stores for a connection,
given the owner of the room at insertion time and the caller-supplied
isOwner flag. -/
def joinedP (conn : Conn) (uname : String) (now : Nat) (owner : String)
    (flag : Bool) : Participant :=
  { id := conn.id, username := uname, joinedAt := now,
    isOwner := flag || (owner == conn.id),
    videoEnabled := true, audioEnabled := true, lastSeen := now }

/-- Concrete participant fixture: the first joiner of the sample room. -/
def pAlice : Participant :=
  { id := "s1", username := "alice", joinedAt := 0, isOwner := true,
    videoEnabled := true, audioEnabled := true, lastSeen := 0 }

/-- Concrete participant fixture: the second joiner of the sample room. -/
def pBob : Participant :=
  { id := "s2", username := "bob", joinedAt := 1, isOwner := false,
    videoEnabled := true, audioEnabled := true, lastSeen := 1 }

/-- Concrete settings fixture with the default capacity. -/
def sampleSettings : Settings :=
  { maxUsers := 50, allowScreenShare := true, allowRecording := true }

/-- Concrete room fixture: alice owns the room, bob is the other member. -/
def roomAB : Room :=
  { nodes := [7], edges := [9], users := [("s1", pAlice), ("s2", pBob)],
    owner := "s1", videoUsers := [("s1", pAlice)], created := 0,
    settings := sampleSettings }

/-- Concrete registry fixture holding only the sample room. -/
def roomsAB : Rooms := [("r1", roomAB)]

/-- Connection fixture for alice, associated with the sample room. -/
def connS1 : Conn :=
  { id := "s1", roomId := some "r1", username := some "alice", joined := ["r1"] }

/-- Connection fixture for bob, associated with the sample room. -/
def connS2 : Conn :=
  { id := "s2", roomId := some "r1", username := some "bob", joined := ["r1"] }

/-- A connection fixture with no room association yet. -/
def connFresh : Conn :=
  { id := "s3", roomId := none, username := none, joined := [] }

/-- Concrete room fixture at capacity one, owned by its sole member. -/
def roomFull : Room :=
  { nodes := [], edges := [], users := [("s1", pAlice)], owner := "s1",
    videoUsers := [], created := 0,
    settings := { maxUsers := 1, allowScreenShare := true, allowRecording := true } }

/-- Concrete registry fixture holding only the full room. -/
def roomsFull : Rooms := [("rf", roomFull)]

/-- Connection fixture for alice, associated with the full room. -/
def connS1F : Conn :=
  { id := "s1", roomId := some "rf", username := some "alice", joined := ["rf"] }

/-- Fresh connection fixture for the first joiner of a scenario. -/
def connA : Conn := { id := "s1", roomId := none, username := none, joined := [] }

/-- Fresh connection fixture for the second joiner of a scenario. -/
def connB : Conn := { id := "s2", roomId := none, username := none, joined := [] }

/-- Registry reached by: connA joins room r as alice, then connB joins room r
as bob while supplying isOwner = true in its payload. -/
def roomsAfterFlaggedJoin : Rooms :=
  (joinRoom 1 50 connB "r" "bob" true
    (joinRoom 0 50 connA "r" "alice" false []).rooms).rooms

theorem mapGet_mapSet (k k2 : String) (v : α) (l : List (String × α)) :
    mapGet k (mapSet k2 v l) = if k2 = k then some v else mapGet k l := by
  induction l with
  | nil => by_cases h : k2 = k <;> simp [mapSet, mapGet, h]
  | cons hd t ih =>
    obtain ⟨k1, v1⟩ := hd
    by_cases h1 : k1 = k2
    · subst h1
      by_cases h2 : k1 = k <;> simp [mapSet, mapGet, h2]
    · by_cases h2 : k1 = k
      · subst h2
        have : ¬ k2 = k1 := fun h => h1 h.symm
        simp [mapSet, mapGet, h1, this]
      · simp [mapSet, mapGet, h1, h2, ih]

theorem mapGet_mapDelete_ne (k k2 : String) (h : k ≠ k2) (l : List (String × α)) :
    mapGet k (mapDelete k2 l) = mapGet k l := by
  induction l with
  | nil => simp [mapDelete]
  | cons hd t ih =>
    obtain ⟨k1, v1⟩ := hd
    have h3 : ¬ k2 = k := fun he => h he.symm
    by_cases h1 : k1 = k2
    · have h2 : ¬ k1 = k := fun hk => h (hk ▸ h1)
      simp [mapDelete, mapGet, h1, h2, h3]
    · by_cases h2 : k1 = k <;> simp [mapDelete, mapGet, h1, h2, h3, h, ih]

theorem mapGet_eq_none_of_not_mem_keys (k : String) (l : List (String × α))
    (h : k ∉ l.map Prod.fst) : mapGet k l = none := by
  induction l with
  | nil => simp [mapGet]
  | cons hd t ih =>
    obtain ⟨k1, v1⟩ := hd
    simp only [List.map_cons, List.mem_cons, not_or] at h
    have h1 : ¬ k1 = k := fun he => h.1 he.symm
    simp [mapGet, h1, ih h.2]

theorem mapGet_mapDelete_self (k : String) (l : List (String × α))
    (hnd : (l.map Prod.fst).Nodup) : mapGet k (mapDelete k l) = none := by
  induction l with
  | nil => simp [mapDelete, mapGet]
  | cons hd t ih =>
    obtain ⟨k1, v1⟩ := hd
    simp only [List.map_cons, List.nodup_cons] at hnd
    by_cases h1 : k1 = k
    · subst h1
      simp only [mapDelete, if_pos rfl]
      exact mapGet_eq_none_of_not_mem_keys k1 t hnd.1
    · simp [mapDelete, mapGet, h1, ih hnd.2]

theorem mem_mapSet (p : String × α) (k : String) (v : α) (l : List (String × α))
    (h : p ∈ mapSet k v l) : p = (k, v) ∨ p ∈ l := by
  induction l with
  | nil =>
    simp only [mapSet, List.mem_singleton] at h
    exact Or.inl h
  | cons hd t ih =>
    obtain ⟨k1, v1⟩ := hd
    by_cases h1 : k1 = k
    · simp only [mapSet, if_pos h1, List.mem_cons] at h
      rcases h with h | h
      · exact Or.inl h
      · exact Or.inr (List.mem_cons_of_mem _ h)
    · simp only [mapSet, if_neg h1, List.mem_cons] at h
      rcases h with h | h
      · subst h
        exact Or.inr (List.mem_cons_self _ _)
      · rcases ih h with h2 | h2
        · exact Or.inl h2
        · exact Or.inr (List.mem_cons_of_mem _ h2)

theorem mem_mapDelete (p : String × α) (k : String) (l : List (String × α))
    (h : p ∈ mapDelete k l) : p ∈ l := by
  induction l with
  | nil =>
    simp only [mapDelete] at h
    exact absurd h (List.not_mem_nil p)
  | cons hd t ih =>
    obtain ⟨k1, v1⟩ := hd
    by_cases h1 : k1 = k
    · simp only [mapDelete, if_pos h1] at h
      exact List.mem_cons_of_mem _ h
    · simp only [mapDelete, if_neg h1, List.mem_cons] at h
      rcases h with h | h
      · subst h
        exact List.mem_cons_self _ _
      · exact List.mem_cons_of_mem _ (ih h)

theorem mapGet_mem (k : String) (v : α) (l : List (String × α))
    (h : mapGet k l = some v) : (k, v) ∈ l := by
  induction l with
  | nil => simp [mapGet] at h
  | cons hd t ih =>
    obtain ⟨k1, v1⟩ := hd
    by_cases h1 : k1 = k
    · subst h1
      simp [mapGet] at h
      subst h
      exact List.mem_cons_self _ _
    · simp only [mapGet, if_neg h1] at h
      exact List.mem_cons_of_mem _ (ih h)

theorem mapSet_ne_nil (k : String) (v : α) (l : List (String × α)) :
    mapSet k v l ≠ [] := by
  cases l with
  | nil => simp [mapSet]
  | cons hd t =>
    obtain ⟨k1, v1⟩ := hd
    by_cases h1 : k1 = k <;> simp [mapSet, h1]

theorem mapSet_mapSet (k : String) (v1 v2 : α) (l : List (String × α)) :
    mapSet k v2 (mapSet k v1 l) = mapSet k v2 l := by
  induction l with
  | nil => simp [mapSet]
  | cons hd t ih =>
    obtain ⟨k1, w1⟩ := hd
    by_cases h1 : k1 = k
    · simp [mapSet, h1]
    · simp [mapSet, h1, ih]

theorem reflag_flags (o : String) (l : List (String × Participant)) :
    ∀ e ∈ reflag o l, e.2.isOwner = (e.1 == o) := by
  intro e he
  simp only [reflag, List.mem_map] at he
  obtain ⟨a, ha, rfl⟩ := he
  rfl

theorem reflag_ne_nil (o : String) (l : List (String × Participant)) (h : l ≠ []) :
    reflag o l ≠ [] := by
  cases l with
  | nil => exact absurd rfl h
  | cons a t => simp [reflag]

theorem roomOk_eq_true (room : Room) :
    roomOk room = true ↔
      room.users ≠ [] ∧ (mapGet room.owner room.users).isSome = true := by
  simp [roomOk]

theorem RegInv_joinRoom (rooms : Rooms) (conn : Conn) (now cfg : Nat)
    (rid uname : String) (flag : Bool) (hcfg : 0 < cfg) (hinv : RegInv rooms) :
    RegInv (joinRoom now cfg conn rid uname flag rooms).rooms := by
  by_cases hv : rid = "" ∨ uname = ""
  · simpa only [joinRoom, if_pos hv] using hinv
  · cases hex : mapGet rid rooms with
    | some room =>
      by_cases hcap : room.users.length ≥ room.settings.maxUsers
      · have hres : (joinRoom now cfg conn rid uname flag rooms).rooms = rooms := by
          simp [joinRoom, hv, hex, hcap]
        rw [hres]
        exact hinv
      · have hres : (joinRoom now cfg conn rid uname flag rooms).rooms =
            mapSet rid
              { room with
                users := mapSet conn.id (joinedP conn uname now room.owner flag)
                  room.users }
              rooms := by
          simp [joinRoom, joinedP, hv, hex, hcap]
        rw [hres]
        intro e he
        rcases mem_mapSet e rid _ rooms he with rfl | hmem
        · have hok := hinv (rid, room) (mapGet_mem rid room rooms hex)
          rw [roomOk_eq_true] at hok ⊢
          refine ⟨mapSet_ne_nil _ _ _, ?_⟩
          rw [mapGet_mapSet]
          by_cases hid : conn.id = room.owner
          · simp [hid]
          · simp only [if_neg hid]
            exact hok.2
        · exact hinv e hmem
    | none =>
      have hres : (joinRoom now cfg conn rid uname flag rooms).rooms =
          mapSet rid
            { freshRoom conn.id now cfg with
              users := [(conn.id, joinedP conn uname now conn.id flag)] }
            rooms := by
        have hc0 : cfg ≠ 0 := Nat.pos_iff_ne_zero.mp hcfg
        simp [joinRoom, joinedP, freshRoom, hv, hex, mapGet_mapSet, hc0,
          mapSet_mapSet, mapSet]
      rw [hres]
      intro e he
      rcases mem_mapSet e rid _ rooms he with rfl | hmem
      · rw [roomOk_eq_true]
        refine ⟨by simp, ?_⟩
        simp [freshRoom, mapGet]
      · exact hinv e hmem

theorem RegInv_departRoom (rooms : Rooms) (conn : Conn) (hinv : RegInv rooms) :
    RegInv (departRoom conn rooms).rooms := by
  cases hcr : conn.roomId with
  | none => simpa only [departRoom, hcr] using hinv
  | some rid =>
    cases hroom : mapGet rid rooms with
    | none => simpa only [departRoom, hcr, hroom] using hinv
    | some room =>
      by_cases hcond : room.owner = conn.id ∧ 0 < (mapDelete conn.id room.users).length
      · cases hu : mapDelete conn.id room.users with
        | nil =>
          rw [hu] at hcond
          exact absurd hcond.2 (by simp)
        | cons a t =>
          obtain ⟨k0, v0⟩ := a
          have hres : (departRoom conn rooms).rooms =
              mapSet rid
                { room with
                  owner := k0,
                  users := reflag k0 ((k0, v0) :: t),
                  videoUsers := reflag k0 (mapDelete conn.id room.videoUsers) }
                rooms := by
            simp [departRoom, hcr, hroom, hu, hcond.1, firstKey]
          rw [hres]
          intro e he
          rcases mem_mapSet e rid _ rooms he with rfl | hmem
          · rw [roomOk_eq_true]
            refine ⟨by simp [reflag], ?_⟩
            simp [reflag, mapGet]
          · exact hinv e hmem
      · by_cases hz : (mapDelete conn.id room.users).length = 0
        · have hres : (departRoom conn rooms).rooms = mapDelete rid rooms := by
            simp [departRoom, hcr, hroom, hcond, hz]
          rw [hres]
          intro e he
          exact hinv e (mem_mapDelete e rid rooms he)
        · have hown : room.owner ≠ conn.id := by
            intro hcontra
            exact hcond ⟨hcontra, Nat.pos_of_ne_zero hz⟩
          have hres : (departRoom conn rooms).rooms =
              mapSet rid
                { room with
                  users := mapDelete conn.id room.users,
                  videoUsers := mapDelete conn.id room.videoUsers }
                rooms := by
            simp [departRoom, hcr, hroom, hcond, hz]
          rw [hres]
          intro e he
          rcases mem_mapSet e rid _ rooms he with rfl | hmem
          · have hok := hinv (rid, room) (mapGet_mem rid room rooms hroom)
            rw [roomOk_eq_true] at hok ⊢
            constructor
            · show mapDelete conn.id room.users ≠ []
              intro hnil
              rw [hnil] at hz
              exact hz rfl
            · show (mapGet room.owner (mapDelete conn.id room.users)).isSome = true
              rw [mapGet_mapDelete_ne room.owner conn.id hown]
              exact hok.2
          · exact hinv e hmem

/-- C1: the claim asserts that after every operation a registered room has a
non-empty general roster containing ownerId, and an empty roster means the
room is absent. As stated the code violates it (see the counterexample), but
the amended form holds: the general-membership operations — join-room,
leave-room and disconnect — all preserve the invariant, for any connection
state and any positive configured capacity. -/
theorem generalOps_preserve_owner_invariant
    (rooms : Rooms) (conn : Conn) (now cfg : Nat) (rid uname : String)
    (flag : Bool) (hcfg : 0 < cfg) (hinv : RegInv rooms) :
    RegInv (joinRoom now cfg conn rid uname flag rooms).rooms ∧
    RegInv (leaveRoom conn rooms).rooms ∧
    RegInv (disconnectH conn rooms).rooms :=
  ⟨RegInv_joinRoom rooms conn now cfg rid uname flag hcfg hinv,
   RegInv_departRoom rooms conn hinv,
   RegInv_departRoom rooms conn hinv⟩

/-- C1 counterexample: join-video-room on an unknown room id registers a room
whose general roster is empty (the claim says an empty roster means the room
is absent), and transfer-ownership by the owner to an id that is not a roster
key leaves a non-empty roster whose keys do not contain ownerId. -/
theorem owner_invariant_counterexample :
    (mapGet "vr" (joinVideoRoom 0 50 connFresh "vr" "carol" false []).rooms).map
      Room.users = some [] ∧
    (mapGet "r1" (transferOwnership connS1 "ghost" roomsAB).rooms).map
      ownerEntry = some none ∧
    (mapGet "r1" (transferOwnership connS1 "ghost" roomsAB).rooms).map
      Room.users ≠ some [] := by
  decide

/-- C1 witness: the preservation theorem applied to the concrete sample
registry and a concrete joining connection. -/
theorem generalOps_preserve_owner_invariant_witness :
    RegInv (joinRoom 2 50 connFresh "r1" "carol" false roomsAB).rooms :=
  (generalOps_preserve_owner_invariant roomsAB connFresh 2 50 "r1" "carol" false
    (by decide) (by unfold RegInv; decide)).1

/-- C2: the claim asserts a join stores isOwner as exactly the comparison
(id == ownerId), never a caller-supplied value. The code violates this (see
the counterexample); the amended form holds: a join stores isOwner as the
caller-supplied flag OR-ed with the comparison — so the default flag false
yields exactly the comparison — and an explicit ownership transfer by the
owner recomputes isOwner as exactly the comparison on both rosters. -/
theorem isOwner_join_formula_and_transfer_recompute
    (now cfg : Nat) (conn oconn : Conn) (rid uname newOwnerId : String)
    (flag : Bool) (rooms : Rooms) (room : Room)
    (h1 : rid ≠ "") (h2 : uname ≠ "")
    (hroom : mapGet rid rooms = some room)
    (hcap : room.users.length < room.settings.maxUsers)
    (hoconn : oconn.roomId = some rid)
    (hown : room.owner = oconn.id) :
    userEntry rid conn.id (joinRoom now cfg conn rid uname flag rooms).rooms =
      some (joinedP conn uname now room.owner flag) ∧
    (joinedP conn uname now room.owner false).isOwner = (room.owner == conn.id) ∧
    roomOwner rid (transferOwnership oconn newOwnerId rooms).rooms =
      some newOwnerId ∧
    (mapGet rid (transferOwnership oconn newOwnerId rooms).rooms).map Room.users =
      some (reflag newOwnerId room.users) ∧
    (mapGet rid (transferOwnership oconn newOwnerId rooms).rooms).map
      Room.videoUsers = some (reflag newOwnerId room.videoUsers) ∧
    (∀ e ∈ reflag newOwnerId room.users, e.2.isOwner = (e.1 == newOwnerId)) ∧
    (∀ e ∈ reflag newOwnerId room.videoUsers,
      e.2.isOwner = (e.1 == newOwnerId)) := by
  have hv : ¬ (rid = "" ∨ uname = "") := by simp [h1, h2]
  have hncap : ¬ room.users.length ≥ room.settings.maxUsers := by omega
  refine ⟨?_, by simp [joinedP], ?_, ?_, ?_,
    reflag_flags newOwnerId room.users, reflag_flags newOwnerId room.videoUsers⟩
  · simp [joinRoom, joinedP, userEntry, hv, hroom, hncap, mapGet_mapSet]
  · simp [transferOwnership, roomOwner, hoconn, hroom, hown.symm, mapGet_mapSet]
  · simp [transferOwnership, hoconn, hroom, hown.symm, mapGet_mapSet]
  · simp [transferOwnership, hoconn, hroom, hown.symm, mapGet_mapSet]

/-- C2 counterexample: connB joins an existing room owned by connA while
supplying isOwner = true; the stored flag is true although connB is not the
owner, so the stored value is not the comparison (id == ownerId). -/
theorem isOwner_caller_flag_counterexample :
    (userEntry "r" "s2" roomsAfterFlaggedJoin).map Participant.isOwner =
      some true ∧
    roomOwner "r" roomsAfterFlaggedJoin = some "s1" := by
  decide

/-- C2 witness: the amended join/transfer theorem applied to the concrete
sample registry, a fresh joiner and the concrete owner connection. -/
theorem isOwner_join_formula_witness :
    userEntry "r1" "s3" (joinRoom 5 50 connFresh "r1" "carol" false roomsAB).rooms =
      some (joinedP connFresh "carol" 5 roomAB.owner false) :=
  (isOwner_join_formula_and_transfer_recompute 5 50 connFresh connS1 "r1" "carol"
    "s2" false roomsAB roomAB (by decide) (by decide) (by decide) (by decide)
    (by decide) (by decide)).1

/-- C3: a join-room request on an existing room whose general roster already
has maxParticipants entries fails with the RoomFull error emitted only to the
requester, mutates no room state, and leaves the roster at exactly its
previous size. -/
theorem joinRoom_full_rejected
    (now cfg : Nat) (conn : Conn) (rid uname : String) (flag : Bool)
    (rooms : Rooms) (room : Room)
    (h1 : rid ≠ "") (h2 : uname ≠ "")
    (hroom : mapGet rid rooms = some room)
    (hfull : room.users.length = room.settings.maxUsers)
    (_hnew : mapGet conn.id room.users = none) :
    (joinRoom now cfg conn rid uname flag rooms).rooms = rooms ∧
    (joinRoom now cfg conn rid uname flag rooms).emits =
      [Emit.toSocket conn.id (Event.error "Room is full")] ∧
    (mapGet rid (joinRoom now cfg conn rid uname flag rooms).rooms).map
      Room.users = some room.users := by
  have hv : ¬ (rid = "" ∨ uname = "") := by simp [h1, h2]
  have hge : room.users.length ≥ room.settings.maxUsers := le_of_eq hfull.symm
  refine ⟨?_, ?_, ?_⟩ <;> simp [joinRoom, hv, hroom, hge]

/-- C3 witness: the rejection theorem applied to the concrete full room and a
concrete outside connection. -/
theorem joinRoom_full_rejected_witness :
    (joinRoom 3 50 connFresh "rf" "carol" false roomsFull).rooms = roomsFull :=
  (joinRoom_full_rejected 3 50 connFresh "rf" "carol" false roomsFull roomFull
    (by decide) (by decide) (by decide) (by decide) (by decide)).1

/-- C4: a transfer-ownership request by a connection that is not the current
owner of its room is a complete no-op — the registry (owner and both rosters
included) is unchanged and no event, error or otherwise, is emitted. -/
theorem transferOwnership_nonowner_noop
    (conn : Conn) (newOwnerId rid : String) (rooms : Rooms) (room : Room)
    (hconn : conn.roomId = some rid)
    (hroom : mapGet rid rooms = some room)
    (hne : room.owner ≠ conn.id) :
    (transferOwnership conn newOwnerId rooms).rooms = rooms ∧
    (transferOwnership conn newOwnerId rooms).emits = [] := by
  constructor <;> simp [transferOwnership, hconn, hroom, hne]

/-- C4 witness: the no-op theorem applied to the concrete sample room with
bob (not the owner) requesting the transfer. -/
theorem transferOwnership_nonowner_noop_witness :
    (transferOwnership connS2 "s2" roomsAB).rooms = roomsAB ∧
    (transferOwnership connS2 "s2" roomsAB).emits = [] :=
  transferOwnership_nonowner_noop connS2 "s2" "r1" roomsAB roomAB (by decide)
    (by decide) (by decide)

/-- C5: when the current owner departs (leave-room or disconnect, which share
one body) and the general roster is non-empty after the removal, the first
key in roster iteration order becomes the new owner, isOwner is recomputed on
both rosters, an ownership-transferred event carrying the new owner id is
broadcast to the room, and the room is still present in the registry. -/
theorem ownerDeparture_promotes_first_key
    (conn : Conn) (rid : String) (rooms : Rooms) (room : Room)
    (hconn : conn.roomId = some rid)
    (hroom : mapGet rid rooms = some room)
    (howner : room.owner = conn.id)
    (hne : mapDelete conn.id room.users ≠ []) :
    mapGet rid (leaveRoom conn rooms).rooms =
      some { room with
             owner := firstKey (mapDelete conn.id room.users),
             users := reflag (firstKey (mapDelete conn.id room.users))
               (mapDelete conn.id room.users),
             videoUsers := reflag (firstKey (mapDelete conn.id room.users))
               (mapDelete conn.id room.videoUsers) } ∧
    (leaveRoom conn rooms).emits =
      [Emit.toRoom rid (Event.ownershipTransferred
          (firstKey (mapDelete conn.id room.users))
          (vals (reflag (firstKey (mapDelete conn.id room.users))
            (mapDelete conn.id room.users)))),
       Emit.toRoomExcept rid conn.id (Event.userLeft conn.id conn.username
          (vals (reflag (firstKey (mapDelete conn.id room.users))
            (mapDelete conn.id room.users)))),
       Emit.toRoomExcept rid conn.id (Event.videoUserLeft conn.id
          (vals (reflag (firstKey (mapDelete conn.id room.users))
            (mapDelete conn.id room.videoUsers)))),
       Emit.toRoom rid (Event.usersUpdated
          (vals (reflag (firstKey (mapDelete conn.id room.users))
            (mapDelete conn.id room.users))))] ∧
    (∀ e ∈ reflag (firstKey (mapDelete conn.id room.users))
        (mapDelete conn.id room.users),
      e.2.isOwner = (e.1 == firstKey (mapDelete conn.id room.users))) ∧
    (∀ e ∈ reflag (firstKey (mapDelete conn.id room.users))
        (mapDelete conn.id room.videoUsers),
      e.2.isOwner = (e.1 == firstKey (mapDelete conn.id room.users))) ∧
    disconnectH conn rooms = leaveRoom conn rooms := by
  have hpos : 0 < (mapDelete conn.id room.users).length :=
    List.length_pos.mpr hne
  refine ⟨?_, ?_, reflag_flags _ _, reflag_flags _ _, rfl⟩ <;>
    simp [leaveRoom, departRoom, hconn, hroom, howner, hpos, mapGet_mapSet]

/-- C5 witness: the promotion theorem applied to the concrete sample room
when alice, its owner, leaves; bob is the first remaining roster key. -/
theorem ownerDeparture_promotes_first_key_witness :
    mapGet "r1" (leaveRoom connS1 roomsAB).rooms =
      some { roomAB with
             owner := firstKey (mapDelete "s1" roomAB.users),
             users := reflag (firstKey (mapDelete "s1" roomAB.users))
               (mapDelete "s1" roomAB.users),
             videoUsers := reflag (firstKey (mapDelete "s1" roomAB.users))
               (mapDelete "s1" roomAB.videoUsers) } :=
  (ownerDeparture_promotes_first_key connS1 "r1" roomsAB roomAB (by decide)
    (by decide) (by decide) (by decide)).1

/-- C6: when the departure (leave-room or disconnect) of the sole remaining
general participant empties the general roster, the room is deleted from the
registry in the same operation, so a subsequent lookup of the room id is
absent. -/
theorem soleDeparture_deletes_room
    (conn : Conn) (rid : String) (rooms : Rooms) (room : Room) (p : Participant)
    (hconn : conn.roomId = some rid)
    (hroom : mapGet rid rooms = some room)
    (hnd : (rooms.map Prod.fst).Nodup)
    (husers : room.users = [(conn.id, p)]) :
    mapGet rid (leaveRoom conn rooms).rooms = none ∧
    mapGet rid (disconnectH conn rooms).rooms = none := by
  have h1 : mapDelete conn.id room.users = [] := by simp [husers, mapDelete]
  constructor <;>
    simp [leaveRoom, disconnectH, departRoom, hconn, hroom, h1,
      mapGet_mapDelete_self rid rooms hnd]

/-- C6 witness: the deletion theorem applied to the concrete one-member room
when its only participant leaves. -/
theorem soleDeparture_deletes_room_witness :
    mapGet "rf" (leaveRoom connS1F roomsFull).rooms = none :=
  (soleDeparture_deletes_room connS1F "rf" roomsFull roomFull pAlice (by decide)
    (by decide) (by decide) (by decide)).1

/-- C7: an update-diagram event from a room member persists the provided
payload fields into the room's diagram state while every omitted field keeps
its previous value — a nodes-only update leaves edges untouched, an
edges-only update leaves nodes untouched, a full update persists both, and an
empty update changes nothing. -/
theorem updateDiagram_frame
    (conn : Conn) (rid : String) (rooms : Rooms) (room : Room) (ns es : List Nat)
    (hconn : conn.roomId = some rid)
    (hroom : mapGet rid rooms = some room) :
    mapGet rid (updateDiagram conn (some ns) none rooms).rooms =
      some { room with nodes := ns } ∧
    mapGet rid (updateDiagram conn none (some es) rooms).rooms =
      some { room with edges := es } ∧
    mapGet rid (updateDiagram conn (some ns) (some es) rooms).rooms =
      some { room with nodes := ns, edges := es } ∧
    mapGet rid (updateDiagram conn none none rooms).rooms = some room := by
  refine ⟨?_, ?_, ?_, ?_⟩ <;> simp [updateDiagram, hconn, hroom, mapGet_mapSet]

/-- C7 witness: the frame theorem applied to the concrete sample room with a
nodes-only update. -/
theorem updateDiagram_frame_witness :
    mapGet "r1" (updateDiagram connS1 (some [3]) none roomsAB).rooms =
      some { roomAB with nodes := [3] } :=
  (updateDiagram_frame connS1 "r1" roomsAB roomAB [3] [4] (by decide)
    (by decide)).1

/-- C8: an offer, answer or ice-candidate relay mutates no registry state and
forwards the payload with the sender id and username as a private event of
the same kind addressed to the caller-supplied target; when no live
connection answers to the target the delivery is empty — no outbound event
and no error to the sender — while a live target receives exactly the event
(transport delivery is modelled from the spec, the transport being external
to the repository). -/
theorem signaling_relay_best_effort
    (conn : Conn) (target : String) (payload : Nat) (rooms : Rooms)
    (lives : List Live) (l2 : Live)
    (hdead : ∀ l ∈ lives, memberOf l target = false)
    (hl2 : l2.id = target) (htne : target ≠ conn.id) :
    (onOffer conn target payload rooms).rooms = rooms ∧
    (onAnswer conn target payload rooms).rooms = rooms ∧
    (onIceCandidate conn target payload rooms).rooms = rooms ∧
    (onOffer conn target payload rooms).emits =
      [Emit.toRoomExcept target conn.id
        (Event.offer payload conn.id conn.username)] ∧
    (onAnswer conn target payload rooms).emits =
      [Emit.toRoomExcept target conn.id
        (Event.answer payload conn.id conn.username)] ∧
    (onIceCandidate conn target payload rooms).emits =
      [Emit.toRoomExcept target conn.id
        (Event.iceCandidate payload conn.id conn.username)] ∧
    deliverAll lives (onOffer conn target payload rooms).emits = [] ∧
    deliverAll lives (onAnswer conn target payload rooms).emits = [] ∧
    deliverAll lives (onIceCandidate conn target payload rooms).emits = [] ∧
    deliverAll [l2] (onOffer conn target payload rooms).emits =
      [(target, Event.offer payload conn.id conn.username)] := by
  have hf : lives.filter (fun l => memberOf l target && l.id != conn.id) = [] := by
    rw [List.filter_eq_nil_iff]
    intro a ha
    simp [hdead a ha]
  refine ⟨rfl, rfl, rfl, rfl, rfl, rfl, ?_, ?_, ?_, ?_⟩
  · simp [deliverAll, deliver, onOffer, hf]
  · simp [deliverAll, deliver, onAnswer, hf]
  · simp [deliverAll, deliver, onIceCandidate, hf]
  · simp [deliverAll, deliver, onOffer, memberOf, hl2, htne]

/-- C8 witness: the relay theorem applied to a concrete sender, a dead target
unknown to every live connection, and a concrete live target. -/
theorem signaling_relay_best_effort_witness :
    deliverAll [Live.mk "s2" ["r1"]]
      (onOffer connS1 "gone" 5 roomsAB).emits = [] :=
  (signaling_relay_best_effort connS1 "gone" 5 roomsAB [Live.mk "s2" ["r1"]]
    (Live.mk "gone" []) (by decide) (by decide) (by decide)).2.2.2.2.2.2.1

/-- C9: the claim asserts that joining a new general room removes the
connection from the previously joined room's general roster so it is a member
of at most one roster. The code violates this (see the counterexample); the
amended form holds: the second join only unsubscribes the connection from the
previous room's transport channel and re-points its remembered association,
while the previous room's registry entry — its roster included — is left
untouched. -/
theorem rejoin_updates_transport_not_roster
    (now cfg : Nat) (conn : Conn) (prev rid uname : String) (flag : Bool)
    (rooms : Rooms)
    (hprev : conn.roomId = some prev)
    (hner : prev ≠ rid)
    (h1 : rid ≠ "") (h2 : uname ≠ "") :
    (joinRoom now cfg conn rid uname flag rooms).conn.roomId = some rid ∧
    (joinRoom now cfg conn rid uname flag rooms).conn.joined =
      sJoin rid (sLeave prev conn.joined) ∧
    mapGet prev (joinRoom now cfg conn rid uname flag rooms).rooms =
      mapGet prev rooms := by
  have hv : ¬ (rid = "" ∨ uname = "") := by simp [h1, h2]
  have hner2 : ¬ rid = prev := fun h => hner h.symm
  refine ⟨?_, ?_, ?_⟩ <;>
  · simp only [joinRoom, if_neg hv, hprev]
    split <;> simp [mapGet_mapSet, hner2] <;> split <;>
      simp [mapGet_mapSet, hner2]

/-- C9 counterexample: connA joins room a, then the same connection joins
room b; afterwards its id is still a key of room a's general roster while
also being a key of room b's — membership in two general rosters at once. -/
theorem implicit_leave_counterexample :
    (userEntry "a" "s1"
      (joinRoom 1 50 (joinRoom 0 50 connA "a" "alice" false []).conn "b" "alice"
        false (joinRoom 0 50 connA "a" "alice" false []).rooms).rooms).isSome =
      true ∧
    (userEntry "b" "s1"
      (joinRoom 1 50 (joinRoom 0 50 connA "a" "alice" false []).conn "b" "alice"
        false (joinRoom 0 50 connA "a" "alice" false []).rooms).rooms).isSome =
      true := by
  decide

/-- C9 witness: the amended theorem applied to the concrete second join,
showing the first room's registry entry is untouched. -/
theorem rejoin_updates_transport_not_roster_witness :
    mapGet "a"
      (joinRoom 1 50 (joinRoom 0 50 connA "a" "alice" false []).conn "b" "alice"
        false (joinRoom 0 50 connA "a" "alice" false []).rooms).rooms =
      mapGet "a" (joinRoom 0 50 connA "a" "alice" false []).rooms :=
  (rejoin_updates_transport_not_roster 1 50
    (joinRoom 0 50 connA "a" "alice" false []).conn "a" "b" "alice" false
    (joinRoom 0 50 connA "a" "alice" false []).rooms (by decide) (by decide)
    (by decide) (by decide)).2.2

/-- C10 (implicit): at capacity, a join-room request from a connection that is
already a member of the roster is rejected with the RoomFull error rather
than overwriting its entry, because the capacity check counts the requester's
own pre-existing entry; the entry is left exactly as it was. -/
theorem joinRoom_full_member_rejected
    (now cfg : Nat) (conn : Conn) (rid uname : String) (flag : Bool)
    (rooms : Rooms) (room : Room) (part : Participant)
    (h1 : rid ≠ "") (h2 : uname ≠ "")
    (hroom : mapGet rid rooms = some room)
    (hfull : room.users.length = room.settings.maxUsers)
    (hmem : mapGet conn.id room.users = some part) :
    (joinRoom now cfg conn rid uname flag rooms).rooms = rooms ∧
    (joinRoom now cfg conn rid uname flag rooms).emits =
      [Emit.toSocket conn.id (Event.error "Room is full")] ∧
    userEntry rid conn.id (joinRoom now cfg conn rid uname flag rooms).rooms =
      some part := by
  have hv : ¬ (rid = "" ∨ uname = "") := by simp [h1, h2]
  have hge : room.users.length ≥ room.settings.maxUsers := le_of_eq hfull.symm
  refine ⟨?_, ?_, ?_⟩ <;> simp [joinRoom, userEntry, hv, hroom, hge, hmem]

/-- C10 witness: the member-rejection theorem applied to the concrete
capacity-one room whose only member rejoins. -/
theorem joinRoom_full_member_rejected_witness :
    userEntry "rf" "s1" (joinRoom 7 50 connS1F "rf" "alice" false roomsFull).rooms =
      some pAlice :=
  (joinRoom_full_member_rejected 7 50 connS1F "rf" "alice" false roomsFull
    roomFull pAlice (by decide) (by decide) (by decide) (by decide)
    (by decide)).2.2

end WBackend
